import Mathlib

/-!
Verification of the printer-management core of CUPS-Cloud-Print
(`printermanager.py`), shallowly embedded in Lean 4.

The embedding models the Python 2.7 library functions the source relies on
(`urlparse.urlparse`, `urllib.unquote`, `str.split`, `str.strip`, dict
assignment) as executable Lean functions over `String`/`List Char`, and the
methods of `PrinterManager` as pure functions with the mutable state
(`_printers`, `cachedPrinterDetails`, `requestor`) passed explicitly.
Network side effects (`requestor.search()`, `requestor.printer(id)`) are
modelled as fields of a `Requestor` record, and the number of such
invocations performed by a call is returned alongside the result.
-/

namespace CCP

/-! ## Python string primitives -/

/-- Python `s.split(c)` on a one-character separator, over `List Char`:
always returns a non-empty list, `''.split(c) == ['']`. -/
def splitCharList (c : Char) : List Char → List (List Char)
  | [] => [[]]
  | x :: xs =>
    if x = c then [] :: splitCharList c xs
    else
      match splitCharList c xs with
      | [] => [[x]]
      | y :: ys => (x :: y) :: ys

/-- Python `s.split(c)` for strings. -/
def pySplit (s : String) (c : Char) : List String :=
  (splitCharList c s.data).map fun l => ⟨l⟩

/-- Python `s.strip(c)`: drop all leading and trailing occurrences of `c`. -/
def stripChar (c : Char) (l : List Char) : List Char :=
  ((l.dropWhile (· == c)).reverse.dropWhile (· == c)).reverse

/-- Python `s.strip(c)` for strings. -/
def pyStrip (s : String) (c : Char) : String :=
  ⟨stripChar c s.data⟩

/-- Index of the first occurrence of `c` in `l`, counting from `k`. -/
def idxOfAux (c : Char) : List Char → Nat → Option Nat
  | [], _ => none
  | x :: xs, k => if x = c then some k else idxOfAux c xs (k + 1)

/-- Python `s.find(c)` (as `Option`): index of the first occurrence of `c`. -/
def idxOf (c : Char) (l : List Char) : Option Nat :=
  idxOfAux c l 0

/-- Python `s.find(c, start)` (as `Option`). -/
def idxOfFrom (c : Char) (l : List Char) (start : Nat) : Option Nat :=
  (idxOf c (l.drop start)).map (· + start)

/-- Python `s.rfind(c)` (as `Option`): index of the last occurrence of `c`. -/
def lastIdxOf (c : Char) (l : List Char) : Option Nat :=
  (idxOf c l.reverse).map (fun k => l.length - 1 - k)

/-- Python `s.startswith(pre)`. -/
def pyStartsWith (s pre : String) : Bool :=
  pre.data.isPrefixOf s.data

/-- Fuel-indexed scan for `pyReplace`: replace non-overlapping occurrences
of `old` left to right.  Each step consumes at least one character, so
`fuel = length` suffices for a non-empty `old`; the `0` case is then
unreachable. -/
def pyReplaceAux (old new : List Char) : Nat → List Char → List Char
  | _, [] => []
  | 0, l => l
  | fuel + 1, x :: xs =>
    if old.isPrefixOf (x :: xs) then
      new ++ pyReplaceAux old new fuel ((x :: xs).drop old.length)
    else x :: pyReplaceAux old new fuel xs

/-- Python `s.replace(old, new)` for a non-empty `old`: replace every
non-overlapping occurrence, scanning left to right. -/
def pyReplace (s old new : String) : String :=
  ⟨pyReplaceAux old.data new.data s.data.length s.data⟩

/-! ## `urllib.unquote` (Python 2.7) -/

/-- Value of a hexadecimal digit, as accepted by `urllib._hextochr`. -/
def hexVal (c : Char) : Option Nat :=
  if '0' ≤ c ∧ c ≤ '9' then some (c.toNat - '0'.toNat)
  else if 'a' ≤ c ∧ c ≤ 'f' then some (c.toNat - 'a'.toNat + 10)
  else if 'A' ≤ c ∧ c ≤ 'F' then some (c.toNat - 'A'.toNat + 10)
  else none

/-- One chunk following a `%` in `urllib.unquote`: decode two hex digits,
or keep the `%` literally when they are missing or invalid. -/
def unquotePart (s : List Char) : List Char :=
  match s with
  | c1 :: c2 :: rest =>
    match hexVal c1, hexVal c2 with
    | some h, some l => Char.ofNat (16 * h + l) :: rest
    | _, _ => '%' :: s
  | _ => '%' :: s

/-- Python 2.7 `urllib.unquote`: split on `%`, decode each following chunk. -/
def unquote (s : String) : String :=
  match splitCharList '%' s.data with
  | [] => s
  | first :: parts => ⟨first ++ (parts.map unquotePart).flatten⟩

/-! ## `urlparse.urlparse` (Python 2.7) -/

/-- Characters allowed in a URL scheme (`urlparse.scheme_chars`). -/
def schemeChar (c : Char) : Bool :=
  c.isAlpha || c.isDigit || c == '+' || c == '-' || c == '.'

/-- Result of `urlparse.urlparse`: the six named components.  The source
only reads `netloc` and `path`. -/
structure UrlParseResult where
  scheme : String
  netloc : String
  path : String
  params : String
  query : String
  fragment : String
deriving DecidableEq

/-- Python `urlparse._splitnetloc(url, 2)`: the netloc extends from index 2
to the first `/`, `?` or `#`. -/
def splitnetloc (url : List Char) : List Char × List Char :=
  let delim := [idxOfFrom '/' url 2, idxOfFrom '?' url 2, idxOfFrom '#' url 2].foldl
    (fun d o => match o with | some w => min d w | none => d) url.length
  ((url.take delim).drop 2, url.drop delim)

/-- Schemes for which `urlparse` separates `;`-parameters from the path
(`urlparse.uses_params`). -/
def usesParams : List String :=
  ["ftp", "hdl", "prospero", "http", "imap", "https", "shttp", "rtsp",
   "rtspu", "sip", "sips", "mms", "", "sftp", "tel"]

/-- Python `urlparse._splitparams`. -/
def splitparams (url : List Char) : List Char × List Char :=
  let i? :=
    if url.contains '/' then
      match lastIdxOf '/' url with
      | some r => idxOfFrom ';' url r
      | none => idxOf ';' url
    else idxOf ';' url
  match i? with
  | none => (url, [])
  | some i => (url.take i, url.drop (i + 1))

/-- Python 2.7 `urlparse.urlsplit` (with `allow_fragments = True`): detect a
scheme, split off the netloc after `//`, then the fragment and the query.
Returns `none` where the Python function raises `ValueError` (unbalanced
IPv6 brackets in the netloc). -/
def urlsplit (url0 : List Char) : Option UrlParseResult :=
  let schemeUrl : List Char × List Char :=
    match idxOf ':' url0 with
    | some i =>
      if 0 < i ∧ (url0.take i).all schemeChar then
        let rest := url0.drop (i + 1)
        if rest.isEmpty || rest.any (fun c => ¬ c.isDigit) then
          ((url0.take i).map Char.toLower, rest)
        else ([], url0)
      else ([], url0)
    | none => ([], url0)
  let scheme := schemeUrl.1
  let url1 := schemeUrl.2
  let netlocUrl : List Char × List Char :=
    if url1.take 2 = ['/', '/'] then splitnetloc url1 else ([], url1)
  let netloc := netlocUrl.1
  let url2 := netlocUrl.2
  if (netloc.contains '[' ∧ ¬ netloc.contains ']') ∨
      (netloc.contains ']' ∧ ¬ netloc.contains '[') then none
  else
    let urlFrag : List Char × List Char :=
      match idxOf '#' url2 with
      | some i => (url2.take i, url2.drop (i + 1))
      | none => (url2, [])
    let urlQuery : List Char × List Char :=
      match idxOf '?' urlFrag.1 with
      | some i => (urlFrag.1.take i, urlFrag.1.drop (i + 1))
      | none => (urlFrag.1, [])
    some ⟨⟨scheme⟩, ⟨netloc⟩, ⟨urlQuery.1⟩, "", ⟨urlQuery.2⟩, ⟨urlFrag.2⟩⟩

/-- Python 2.7 `urlparse.urlparse`: `urlsplit`, then split `;`-parameters
off the path for the schemes that use them. -/
def urlparse (urlstring : String) : Option UrlParseResult :=
  match urlsplit urlstring.data with
  | none => none
  | some s =>
    if s.scheme ∈ usesParams ∧ s.path.data.contains ';' then
      let pp := splitparams s.path.data
      some { s with path := ⟨pp.1⟩, params := ⟨pp.2⟩ }
    else some s

/-! ## Data model -/

/-- A cloud printer summary as used by the source: only its `id` field is
ever read (`printer['id']` in `getPrinterByURI`). -/
structure PrinterInfo where
  id : String
deriving DecidableEq

/-- A per-account cloud client.  `search()` and `printer(id)` are network
calls; the embedding fixes their responses as fields.  `searchResult = none`
models a `search()` response without a `'printers'` key.  `δ` is the opaque
detail payload type. -/
structure Requestor (δ : Type) where
  account : String
  searchResult : Option (List PrinterInfo)
  printerDetail : String → δ

/-- The `Printer(printer_info, requestor)` object constructed by
`getPrinters`. -/
structure Printer (δ : Type) where
  info : PrinterInfo
  requestor : Requestor δ

/-- Python dict lookup on an association list (first matching key). -/
def dictLookup {α : Type} (d : List (String × α)) (k : String) : Option α :=
  match d with
  | [] => none
  | (k', v') :: rest => if k' == k then some v' else dictLookup rest k

/-- Python dict assignment `d[k] = v` on an association list: update the
binding in place if `k` is present, otherwise append. -/
def dictSet {α : Type} (d : List (String × α)) (k : String) (v : α) :
    List (String × α) :=
  match d with
  | [] => [(k, v)]
  | (k', v') :: rest =>
    if k' == k then (k, v) :: rest else (k', v') :: dictSet rest k v

namespace Auth

/-- Modelled from the spec: `Auth.GetAccountNames` lives in `auth.py`, which
is not part of the reviewed source; per §4.2/§6 it enumerates "the list of
known account names", one per configured requestor
(`getAccount() -> string`). -/
def GetAccountNames {δ : Type} (requestors : List (Requestor δ)) : List String :=
  requestors.map (·.account)

end Auth

/-! ## PrinterManager constants (source lines 38-49) -/

/-- The reserved capability words of `PrinterManager.reservedCapabilityWords`. -/
def reservedCapabilityWords : List String :=
  ["Duplex", "Resolution", "Attribute", "Choice", "ColorDevice", "ColorModel",
   "ColorProfile", "Copyright", "CustomMedia", "Cutter", "Darkness",
   "DriverType", "FileName", "Filter", "Finishing", "Font", "Group",
   "HWMargins", "InputSlot", "Installable", "LocAttribute", "ManualCopies",
   "Manufacturer", "MaxSize", "MediaSize", "MediaType", "MinSize",
   "ModelName", "ModelNumber", "Option", "PCFileName", "SimpleColorProfile",
   "Throughput", "UIConstraints", "VariablePaperSize", "Version", "Color",
   "Background", "Stamp", "DestinationColorProfile"]

def URIFormatLatest : Nat := 1
def URIFormat20140307 : Nat := 2
def URIFormat20140210 : Nat := 3

/-! ## PrinterManager.getPrinters (source lines 78-96) -/

/-- `PrinterManager.getPrinters(accountName=None)`.

State passing: `printersCache` is the `_printers` attribute (`none` when the
attribute has not been set yet).  Returns the result list, the new value of
`_printers`, and the number of `requestor.search()` network calls made.

When the cache attribute exists the cached list is returned unchanged; the
requestor loop (with its `accountName` filter) only runs on the populating
call. -/
def getPrinters {δ : Type} (requestors : List (Requestor δ))
    (printersCache : Option (List (Printer δ))) (accountName : Option String) :
    List (Printer δ) × Option (List (Printer δ)) × Nat :=
  match printersCache with
  | some ps => (ps, some ps, 0)
  | none =>
    let searched := requestors.filter (fun r =>
      match accountName with
      | none => true
      | some a => a == r.account)
    let ps := searched.foldl (fun acc r =>
      match r.searchResult with
      | some infos => acc ++ infos.map (fun i => Printer.mk i r)
      | none => acc) []
    (ps, some ps, searched.length)

/-! ## URI handling (source lines 145-202) -/

/-- `PrinterManager._getPrinterIdFromURI` (source lines 145-148):
`urlparse(uristring).path.split('/')[1]`.  `none` models the exceptions the
Python code can raise (`IndexError` when the split has fewer than two
elements, `ValueError` from `urlparse`). -/
def getPrinterIdFromURI (uristring : String) : Option String :=
  match urlparse uristring with
  | none => none
  | some uri => (pySplit uri.path '/').get? 1

/-- The four-tuple returned by `parseLegacyURI`. -/
structure LegacyURIResult where
  accountName : Option String
  printerName : Option String
  printerId : Option String
  formatId : Nat
deriving DecidableEq

/-- `PrinterManager.parseLegacyURI(uristring, requestors)` (source lines
150-183).  `none` models a raised exception (`ValueError` from `urlparse`,
`IndexError` from list indexing); indexing into `pathparts` is written with
`get?` exactly where the source indexes. -/
def parseLegacyURI {δ : Type} (uristring : String)
    (requestors : List (Requestor δ)) : Option LegacyURIResult :=
  match urlparse uristring with
  | none => none
  | some uri =>
    let pathparts := pySplit (pyStrip uri.path '/') '/'
    if pathparts.length = 2 then
      match pathparts.get? 0, pathparts.get? 1 with
      | some part0, some part1 =>
        some ⟨some (unquote part0), some (unquote uri.netloc),
          some (unquote part1), URIFormat20140307⟩
      | _, _ => none
    else
      if unquote uri.netloc ∉ Auth.GetAccountNames requestors then
        match pathparts.get? 0 with
        | some part0 =>
          some ⟨some (unquote part0), some (unquote uri.netloc), none,
            URIFormat20140210⟩
        | none => none
      else
        match pathparts.get? 0 with
        | some part0 =>
          some ⟨some (unquote uri.netloc), none, some (unquote part0),
            URIFormatLatest⟩
        | none => none

/-- `PrinterManager.findRequestorForAccount(account)` (source lines
185-195): first requestor whose account equals `account`, else `None`. -/
def findRequestorForAccount {δ : Type} (requestors : List (Requestor δ))
    (account : String) : Option (Requestor δ) :=
  requestors.find? (fun r => r.account == account)

/-- `PrinterManager.getPrinterByURI(uri)` (source lines 197-202).  The outer
`none` models the exception propagated from `_getPrinterIdFromURI`; on
success the result is the first printer whose `id` matches (or `none`),
paired with the possibly-updated `_printers` cache. -/
def getPrinterByURI {δ : Type} (requestors : List (Requestor δ))
    (printersCache : Option (List (Printer δ))) (uri : String) :
    Option (Option (Printer δ) × Option (List (Printer δ))) :=
  match getPrinterIdFromURI uri with
  | none => none
  | some printerid =>
    let res := getPrinters requestors printersCache none
    some (res.1.find? (fun p => p.info.id == printerid), res.2.1)

/-- `PrinterManager.getPrinterIDByDetails(account, printername, printerid)`
(source lines 204-221).  `printername` is accepted and never used, exactly
as in the source. -/
def getPrinterIDByDetails {δ : Type} (requestors : List (Requestor δ))
    (account printername : String) (printerid : Option String) :
    Option String × Option (Requestor δ) :=
  match findRequestorForAccount requestors (unquote account) with
  | none => (none, none)
  | some requestor =>
    match printerid with
    | some pid => (some pid, some requestor)
    | none => (none, none)

/-! ## PrinterManager.getPrinterDetails (source lines 223-236) -/

/-- `PrinterManager.getPrinterDetails(printerid)`.

State passing: `requestor` is the class attribute `PrinterManager.requestor`
(default `None`), `cache` is `cachedPrinterDetails`.  Returns the payload,
the new cache, and the number of `requestor.printer(id)` network calls; the
outer `none` models the `AttributeError` raised when the id is uncached and
`requestor` is still `None`. -/
def getPrinterDetails {δ : Type} (requestor : Option (Requestor δ))
    (cache : List (String × δ)) (printerid : String) :
    Option (δ × List (String × δ) × Nat) :=
  match dictLookup cache printerid with
  | none =>
    match requestor with
    | none => none
    | some r =>
      let printerdetails := r.printerDetail printerid
      some (printerdetails, dictSet cache printerid printerdetails, 1)
  | some printerdetails => some (printerdetails, cache, 0)

/-! ## CapabilityNameCodec (spec-modelled) and CapabilityOverrideMerger -/

/-- The two kinds accepted by `getInternalName` (`'capability'` /
`'option'`). -/
inductive InternalKind where
  | capability
  | option
deriving DecidableEq

/-- Modelled from the spec: the concrete sanitization rule inside
`getInternalName` is not part of the reviewed source (spec §9 open
question); any rule satisfying the §4.1 contract may be chosen.  This model
keeps the alphanumeric characters of the name. -/
def sanitizeName (name : String) : String :=
  ⟨name.data.filter (fun c => c.isAlphanum)⟩

/-- Modelled from the spec: deterministic per-scope disambiguation (§4.1):
keep the name if unused, otherwise append the first counter that makes it
fresh. -/
def freshen (base : String) (existing : List String) : String :=
  if base ∉ existing then base
  else
    match (List.range (existing.length + 1)).find?
        (fun n => (base ++ toString n) ∉ existing) with
    | some n => base ++ toString n
    | none => base

/-- Modelled from the spec: `getInternalName(details, internalType,
capabilityName, existingList)` is called by the source but defined outside
the reviewed scope.  Contract (§4.1): pure and deterministic; for
`capability` kind the result never collides (case-sensitively) with
`reservedCapabilityWords`; for `option` kind the result is unique within
`existing`.  The parent capability name does not influence this model. -/
def getInternalName (name : String) (kind : InternalKind)
    (parentCapabilityName : Option String) (existing : List String) : String :=
  let base := sanitizeName name
  match kind, parentCapabilityName with
  | .capability, _ =>
    freshen (if base ∈ reservedCapabilityWords then "GCP" ++ base else base)
      existing
  | .option, _ => freshen base existing

/-! ## PrinterManager.getOverrideCapabilities (source lines 238-257) -/

/-- The `ignorecapabilities` list of `getOverrideCapabilities`. -/
def ignorecapabilities : List String := ["Orientation"]

/-- The body of the `for optiontext in overrideoptions` loop of
`getOverrideCapabilities` (source lines 243-255), acting on the accumulated
dict.  `key=value` tokens set the dict entry unless the key is ignored
(`continue`); the `landscape`/`nolandscape` test then runs on every
non-skipped token. -/
def processOverrideToken (acc : List (String × String)) (optiontext : String) :
    List (String × String) :=
  if optiontext.data.contains '=' then
    let optionparts := pySplit optiontext '='
    let option := optionparts.headD ""
    if ignorecapabilities.contains option then acc
    else
      let value := (optionparts.get? 1).getD ""
      let acc2 := dictSet acc option value
      if optiontext == "landscape" || optiontext == "nolandscape" then
        dictSet acc2 "Orientation" "Landscape"
      else acc2
  else
    if optiontext == "landscape" || optiontext == "nolandscape" then
      dictSet acc "Orientation" "Landscape"
    else acc

/-- `PrinterManager.getOverrideCapabilities(overrideoptionsstring)` (source
lines 238-257): split on spaces and fold the loop body over the tokens. -/
def getOverrideCapabilities (overrideoptionsstring : String) :
    List (String × String) :=
  (pySplit overrideoptionsstring ' ').foldl processOverrideToken []

/-! ## PrinterManager.getCapabilitiesDict (source lines 259-300) -/

/-- A capability option as published by the cloud service: the source reads
`option['name']`. -/
structure CloudOption where
  name : String
deriving DecidableEq

/-- A cloud capability: `capability['name']` and `capability['options']`. -/
structure CloudCapability where
  name : String
  options : List CloudOption
deriving DecidableEq

/-- A PPD driver attribute: `attr['name']` and `attr['value']`. -/
structure DriverAttr where
  name : String
  value : String
deriving DecidableEq

/-- One emitted entry
`{'type': 'Feature', 'name': gcpname, 'options': [{'name': gcpoption}]}`. -/
structure CapabilityEntry where
  type : String
  name : String
  options : List CloudOption
deriving DecidableEq

/-- The `{'capabilities': [...]}` dict returned by `getCapabilitiesDict`. -/
structure CapabilitiesDict where
  capabilities : List CapabilityEntry
deriving DecidableEq

/-- The `for capability in printercapabilities` search (source lines
271-272): first capability whose internal name equals `hashname`, with
`break` on the match. -/
def findCapability (printercapabilities : List CloudCapability)
    (hashname : String) : Option CloudCapability :=
  printercapabilities.find?
    (fun capability =>
      hashname == getInternalName capability.name .capability none [])

/-- The two `for option in capability['options']` loops of
`getCapabilitiesDict` (source lines 274-280 and 286-292): walk the options
accumulating their internal names (`addedCapabilities` / `addedOptions`,
both starting empty) and return the display name of the first option whose
internal name equals `target`, with `break` on the match. -/
def findOptionByInternal (gcpname target : String) :
    List CloudOption → List String → Option String
  | [], _ => none
  | o :: rest, used =>
    let internal := getInternalName o.name .option (some gcpname) used
    if target == internal then some o.name
    else findOptionByInternal gcpname target rest (used ++ [internal])

/-- The `for overridecapability in overridecapabilities` loop head (source
lines 282-285): the first override key whose `'Default' + key` equals the
attribute name selects its value, with `break` after it is processed. -/
def lookupOverrideFor (overridecapabilities : List (String × String))
    (attrName : String) : Option String :=
  (overridecapabilities.find? (fun kv => "Default" ++ kv.1 == attrName)).map
    (·.2)

/-- The body of the `for attr in attrs` loop of `getCapabilitiesDict`
(source lines 262-299): `none` when the attribute contributes no entry. -/
def processAttr (printercapabilities : List CloudCapability)
    (overridecapabilities : List (String × String)) (attr : DriverAttr) :
    Option CapabilityEntry :=
  if pyStartsWith attr.name "Default" then
    let hashname := pyReplace attr.name "Default" ""
    match findCapability printercapabilities hashname with
    | none => none
    | some capability =>
      let gcpname := capability.name
      let fromAttr := findOptionByInternal gcpname attr.value
        capability.options []
      let gcpoption :=
        match lookupOverrideFor overridecapabilities attr.name with
        | none => fromAttr
        | some selectedoption =>
          match findOptionByInternal gcpname selectedoption
              capability.options [] with
          | some o => some o
          | none => fromAttr
      match gcpoption with
      | some o => some ⟨"Feature", gcpname, [⟨o⟩]⟩
      | none => none
  else none

/-- `PrinterManager.getCapabilitiesDict(attrs, printercapabilities,
overridecapabilities)` (source lines 259-300). -/
def getCapabilitiesDict (attrs : List DriverAttr)
    (printercapabilities : List CloudCapability)
    (overridecapabilities : List (String × String)) : CapabilitiesDict :=
  ⟨attrs.foldl (fun acc attr =>
    match processAttr printercapabilities overridecapabilities attr with
    | some e => acc ++ [e]
    | none => acc) []⟩

/-! ## Concrete fixtures for claim C1 -/

/-- Two accounts, one printer each. -/
def c1Requestors : List (Requestor Nat) :=
  [⟨"a", some [⟨"p1"⟩], fun _ => 0⟩, ⟨"b", some [⟨"p2"⟩], fun _ => 0⟩]

/-- The cache-populating first call, with no account filter. -/
def c1FirstCall : List (Printer Nat) × Option (List (Printer Nat)) × Nat :=
  getPrinters c1Requestors none none

/-- A subsequent call, with an account filter. -/
def c1SecondCall : List (Printer Nat) × Option (List (Printer Nat)) × Nat :=
  getPrinters c1Requestors c1FirstCall.2.1 (some "a")

/-! ## Helper lemmas -/

theorem splitCharList_ne_nil (c : Char) (l : List Char) :
    splitCharList c l ≠ [] := by
  cases l with
  | nil => simp [splitCharList]
  | cons x xs =>
    simp only [splitCharList]
    split
    · simp
    · split <;> simp

theorem pySplit_ne_nil (s : String) (c : Char) : pySplit s c ≠ [] := by
  intro h
  exact splitCharList_ne_nil c s.data (by simpa [pySplit] using h)

theorem splitCharList_not_mem {c : Char} {l : List Char} (h : c ∉ l) :
    splitCharList c l = [l] := by
  induction l with
  | nil => rfl
  | cons x xs ih =>
    have hx : ¬ (x = c) := fun hh => h (hh ▸ List.mem_cons_self x xs)
    have hxs : c ∉ xs := fun hh => h (List.mem_cons_of_mem x hh)
    simp only [splitCharList, if_neg hx, ih hxs]

theorem splitCharList_sep {c : Char} {l1 l2 : List Char} (h : c ∉ l1) :
    splitCharList c (l1 ++ c :: l2) = l1 :: splitCharList c l2 := by
  induction l1 with
  | nil => simp [splitCharList]
  | cons x xs ih =>
    have hx : ¬ (x = c) := fun hh => h (hh ▸ List.mem_cons_self x xs)
    have hxs : c ∉ xs := fun hh => h (List.mem_cons_of_mem x hh)
    simp only [List.cons_append, splitCharList, if_neg hx, List.append_eq,
      ih hxs]

theorem dictLookup_dictSet_self {α : Type} (d : List (String × α))
    (k : String) (v : α) : dictLookup (dictSet d k v) k = some v := by
  induction d with
  | nil => simp [dictSet, dictLookup]
  | cons p rest ih =>
    obtain ⟨k', v'⟩ := p
    by_cases hk : k' = k
    · subst hk
      simp [dictSet, dictLookup]
    · have hb : (k' == k) = false := beq_eq_false_iff_ne.mpr hk
      simp [dictSet, dictLookup, hb, ih]

/-! ## Claim C1 -/

/-- Claim C1, counterexample: after the cache-populating first call (no
filter; both accounts searched), a second call with `accountFilter = "a"`
performs no search but returns the whole cached set, printer `p2` of
account `b` included — not the set filtered by the subsequent call's
filter, which would be `[p1]` only. -/
theorem c1_counterexample :
    c1SecondCall.2.2 = 0 ∧
    c1SecondCall.1.map (fun p => (p.info.id, p.requestor.account)) =
      [("p1", "a"), ("p2", "b")] ∧
    (c1FirstCall.1.filter (fun p => p.requestor.account == "a")).map
      (fun p => (p.info.id, p.requestor.account)) = [("p1", "a")] ∧
    c1SecondCall.1.map (fun p => p.info.id) ≠
      (c1FirstCall.1.filter (fun p => p.requestor.account == "a")).map
        (fun p => p.info.id) := by
  exact ⟨rfl, rfl, rfl, by decide⟩

/-- Claim C1 (amended): after the first call to `getPrinters` has populated
the printer cache, every subsequent call — including a call with a
different `accountFilter` argument — performs no further
`requestor.search()` invocations and returns the cached fetched set
unchanged, ignoring the `accountFilter` given to that subsequent call
(filtering only happens during the cache-populating call). -/
theorem c1_claim {δ : Type} (requestors : List (Requestor δ))
    (ps : List (Printer δ)) (accountName : Option String) :
    getPrinters requestors (some ps) accountName = (ps, some ps, 0) := rfl

/-! ## Claim C3 -/

/-- Claim C3: with known account names `{"alice@example.com"}`,
`parseLegacyURI` classifies the three historical URI forms exactly as the
spec's concrete cases state. -/
theorem c3_claim :
    parseLegacyURI "cloudprint://alice@example.com/printer123"
      [(⟨"alice@example.com", none, fun _ => 0⟩ : Requestor Nat)] =
      some ⟨some "alice@example.com", none, some "printer123",
        URIFormatLatest⟩ ∧
    parseLegacyURI "cloudprint://My%20Printer/alice%40example.com"
      [(⟨"alice@example.com", none, fun _ => 0⟩ : Requestor Nat)] =
      some ⟨some "alice@example.com", some "My Printer", none,
        URIFormat20140210⟩ ∧
    parseLegacyURI "cloudprint://My%20Printer/alice%40example.com/printer123"
      [(⟨"alice@example.com", none, fun _ => 0⟩ : Requestor Nat)] =
      some ⟨some "alice@example.com", some "My Printer", some "printer123",
        URIFormat20140307⟩ := by
  exact ⟨by decide, by decide, by decide⟩

/-! ## Claim C4 -/

/-- Claim C4: whenever the parsed URI's path strips and splits into exactly
two (necessarily non-empty) segments, `parseLegacyURI` classifies the URI
as `F20140307` with `printerId` the URL-decoded second segment,
`accountName` the URL-decoded first segment, and `printerName` the
URL-decoded authority — for every requestor list, so the outcome is
independent of (and decided before) any known-account-name test. -/
theorem c4_claim {δ : Type} (uristring : String)
    (requestors : List (Requestor δ)) (uri : UrlParseResult)
    (hparse : urlparse uristring = some uri) (s0 s1 : String)
    (hsplit : pySplit (pyStrip uri.path '/') '/' = [s0, s1])
    (h0 : s0 ≠ "") (h1 : s1 ≠ "") :
    parseLegacyURI uristring requestors =
      some ⟨some (unquote s0), some (unquote uri.netloc), some (unquote s1),
        URIFormat20140307⟩ := by
  unfold parseLegacyURI
  rw [hparse]
  simp only [hsplit]
  rfl

/-- Witness for C4 at a concrete two-segment URI with an empty requestor
list (no known accounts), exercising the account-independence. -/
theorem c4_witness :
    parseLegacyURI "cloudprint://My%20Printer/alice%40example.com/printer123"
      ([] : List (Requestor Nat)) =
      some ⟨some "alice@example.com", some "My Printer", some "printer123",
        URIFormat20140307⟩ := by
  have h := c4_claim "cloudprint://My%20Printer/alice%40example.com/printer123"
    ([] : List (Requestor Nat))
    ⟨"cloudprint", "My%20Printer", "/alice%40example.com/printer123", "", "", ""⟩
    (by decide) "alice%40example.com" "printer123" (by decide) (by decide)
    (by decide)
  exact h.trans (by decide)

/-! ## Claim C6 -/

/-- Claim C6: for an id not yet cached, the first `getPrinterDetails` call
performs exactly one `requestor.printer(id)` fetch and caches the payload;
the immediately following call performs zero fetches, returns the same
payload, and leaves the cache unchanged. -/
theorem c6_claim {δ : Type} (r : Requestor δ) (cache : List (String × δ))
    (printerid : String) (h : dictLookup cache printerid = none) :
    getPrinterDetails (some r) cache printerid =
      some (r.printerDetail printerid,
        dictSet cache printerid (r.printerDetail printerid), 1) ∧
    getPrinterDetails (some r)
      (dictSet cache printerid (r.printerDetail printerid)) printerid =
      some (r.printerDetail printerid,
        dictSet cache printerid (r.printerDetail printerid), 0) := by
  constructor
  · unfold getPrinterDetails
    rw [h]
  · unfold getPrinterDetails
    rw [dictLookup_dictSet_self]

/-- Witness for C6: two calls on an empty cache perform one fetch total and
agree on the payload. -/
theorem c6_witness :
    dictLookup ([] : List (String × Nat)) "p" = none ∧
    getPrinterDetails (some (⟨"a", none, fun _ => 7⟩ : Requestor Nat)) [] "p" =
      some (7, [("p", 7)], 1) ∧
    getPrinterDetails (some (⟨"a", none, fun _ => 7⟩ : Requestor Nat))
      [("p", 7)] "p" = some (7, [("p", 7)], 0) := by
  have h := c6_claim (⟨"a", none, fun _ => 7⟩ : Requestor Nat) [] "p" rfl
  exact ⟨rfl, h.1, h.2⟩

/-! ## Claim C8 -/

/-- Claim C8: `getPrinterIDByDetails` returns `(printerid, requestor)`
exactly when some configured requestor's account equals the URL-decoded
account argument and `printerid` is non-absent (the requestor returned is
the one found for the account), and `(None, None)` in every other case;
the `printername` argument never influences the result. -/
theorem c8_claim {δ : Type} (requestors : List (Requestor δ))
    (account printername : String) (printerid : Option String) :
    (∀ printername',
      getPrinterIDByDetails requestors account printername' printerid =
        getPrinterIDByDetails requestors account printername printerid) ∧
    ((∃ r ∈ requestors, r.account = unquote account) →
      ∀ pid, printerid = some pid →
        getPrinterIDByDetails requestors account printername printerid =
          (some pid, findRequestorForAccount requestors (unquote account))) ∧
    (((¬ ∃ r ∈ requestors, r.account = unquote account) ∨ printerid = none) →
      getPrinterIDByDetails requestors account printername printerid =
        (none, none)) := by
  refine ⟨fun _ => rfl, ?_, ?_⟩
  · rintro ⟨r, hrmem, hracct⟩ pid hpid
    subst hpid
    have hfind : (findRequestorForAccount requestors (unquote account)).isSome := by
      unfold findRequestorForAccount
      rw [List.find?_isSome]
      exact ⟨r, hrmem, by simpa using hracct⟩
    obtain ⟨req, hreq⟩ := Option.isSome_iff_exists.mp hfind
    unfold getPrinterIDByDetails
    rw [hreq]
  · intro h
    unfold getPrinterIDByDetails
    cases h with
    | inl hno =>
      have hfind : findRequestorForAccount requestors (unquote account) = none := by
        unfold findRequestorForAccount
        rw [List.find?_eq_none]
        intro x hx
        simp only [beq_iff_eq]
        exact fun hh => hno ⟨x, hx, hh⟩
      rw [hfind]
    | inr hnone =>
      subst hnone
      cases findRequestorForAccount requestors (unquote account) <;> rfl

/-- Witness for C8: a matching account with an id yields the pair; an
unknown account yields `(None, None)`. -/
theorem c8_witness :
    getPrinterIDByDetails
      [(⟨"alice@example.com", none, fun _ => 0⟩ : Requestor Nat)]
      "alice%40example.com" "SomeName" (some "printer123") =
      (some "printer123", some ⟨"alice@example.com", none, fun _ => 0⟩) ∧
    getPrinterIDByDetails
      [(⟨"alice@example.com", none, fun _ => 0⟩ : Requestor Nat)]
      "bob@example.com" "SomeName" (some "printer123") = (none, none) := by
  have h1 := (c8_claim
    [(⟨"alice@example.com", none, fun _ => 0⟩ : Requestor Nat)]
    "alice%40example.com" "SomeName" (some "printer123")).2.1
    ⟨⟨"alice@example.com", none, fun _ => 0⟩, List.mem_cons_self _ _,
      by decide⟩ "printer123" rfl
  have h2 := (c8_claim
    [(⟨"alice@example.com", none, fun _ => 0⟩ : Requestor Nat)]
    "bob@example.com" "SomeName" (some "printer123")).2.2
    (Or.inl (by
      rintro ⟨r, hr, ha⟩
      rw [List.mem_singleton] at hr
      subst hr
      exact absurd ha (by decide)))
  exact ⟨h1, h2⟩

/-! ## Claim C9 -/

/-- Claim C9: `_getPrinterIdFromURI` indexes `path.split('/')[1]`, so a
syntactically valid URI whose path splits into fewer than two elements
makes it raise (modelled as `none`), and `getPrinterByURI` propagates the
error instead of returning a printer or `None`. -/
theorem c9_claim {δ : Type} (uristring : String) (uri : UrlParseResult)
    (hparse : urlparse uristring = some uri)
    (hshort : (pySplit uri.path '/').length < 2) :
    getPrinterIdFromURI uristring = none ∧
    ∀ (requestors : List (Requestor δ))
      (printersCache : Option (List (Printer δ))),
      getPrinterByURI requestors printersCache uristring = none := by
  have hid : getPrinterIdFromURI uristring = none := by
    unfold getPrinterIdFromURI
    rw [hparse]
    exact List.get?_eq_none.mpr (by omega)
  refine ⟨hid, fun requestors printersCache => ?_⟩
  unfold getPrinterByURI
  rw [hid]

/-- Witness for C9 at `cloudprint://host`, whose path is empty. -/
theorem c9_witness :
    urlparse "cloudprint://host" = some ⟨"cloudprint", "host", "", "", "", ""⟩ ∧
    getPrinterIdFromURI "cloudprint://host" = none ∧
    getPrinterByURI ([] : List (Requestor Nat)) none "cloudprint://host" =
      none := by
  have h := c9_claim (δ := Nat) "cloudprint://host"
    ⟨"cloudprint", "host", "", "", "", ""⟩ (by decide) (by decide)
  exact ⟨by decide, h.1, h.2 [] none⟩

/-! ## Claim C10 -/

/-- Claim C10: `getPrinterDetails` reaches the network only through the
single shared `requestor` attribute; on a cache miss it yields a payload
exactly when that attribute holds a requestor, and under the default
`None` it errors (`none`) instead of selecting a requestor by account. -/
theorem c10_claim {δ : Type} (cache : List (String × δ))
    (printerid : String) (h : dictLookup cache printerid = none) :
    getPrinterDetails (none : Option (Requestor δ)) cache printerid = none ∧
    ∀ r : Requestor δ, getPrinterDetails (some r) cache printerid =
      some (r.printerDetail printerid,
        dictSet cache printerid (r.printerDetail printerid), 1) := by
  constructor
  · unfold getPrinterDetails
    rw [h]
  · intro r
    unfold getPrinterDetails
    rw [h]

/-- Witness for C10 on an empty cache. -/
theorem c10_witness :
    getPrinterDetails (none : Option (Requestor Nat)) [] "p" = none ∧
    getPrinterDetails (some (⟨"a", none, fun _ => 5⟩ : Requestor Nat)) [] "p" =
      some (5, [("p", 5)], 1) := by
  have h := c10_claim ([] : List (String × Nat)) "p" rfl
  exact ⟨h.1, h.2 ⟨"a", none, fun _ => 5⟩⟩

/-! ## Claim C7 -/

/-- Claim C7: for every syntactically parseable URI (`urlparse` succeeds)
and every requestor list, `parseLegacyURI` returns a four-tuple without
raising; and when the path does not have the two-segment shape and the
decoded authority is not a known account name, the classification defaults
to `F20140210` with `printerId` absent. -/
theorem c7_claim {δ : Type} (uristring : String)
    (requestors : List (Requestor δ)) (uri : UrlParseResult)
    (hparse : urlparse uristring = some uri) :
    (∃ result, parseLegacyURI uristring requestors = some result) ∧
    (∀ result, parseLegacyURI uristring requestors = some result →
      (pySplit (pyStrip uri.path '/') '/').length ≠ 2 →
      unquote uri.netloc ∉ Auth.GetAccountNames requestors →
      result.formatId = URIFormat20140210 ∧ result.printerId = none) := by
  obtain ⟨p0, rest, hps⟩ :
      ∃ p0 rest, pySplit (pyStrip uri.path '/') '/' = p0 :: rest := by
    cases hh : pySplit (pyStrip uri.path '/') '/' with
    | nil => exact absurd hh (pySplit_ne_nil _ _)
    | cons a l => exact ⟨a, l, rfl⟩
  unfold parseLegacyURI
  rw [hparse]
  simp only [hps]
  by_cases hlen : (p0 :: rest).length = 2
  · obtain ⟨p1, hrest⟩ : ∃ p1, rest = [p1] := by
      cases rest with
      | nil => simp at hlen
      | cons b t =>
        cases t with
        | nil => exact ⟨b, rfl⟩
        | cons c u => simp [List.length_cons] at hlen
    subst hrest
    refine ⟨⟨_, rfl⟩, ?_⟩
    intro result _ hlen2 _
    exact absurd rfl hlen2
  · rw [if_neg hlen]
    by_cases hacct : unquote uri.netloc ∉ Auth.GetAccountNames requestors
    · rw [if_pos hacct]
      refine ⟨⟨_, rfl⟩, ?_⟩
      intro result hr _ _
      simp only [List.get?_cons_zero, Option.some_inj] at hr
      subst hr
      exact ⟨rfl, rfl⟩
    · rw [if_neg hacct]
      refine ⟨⟨_, rfl⟩, ?_⟩
      intro result _ _ hacct2
      exact absurd (not_not.mp hacct) hacct2

/-- Witness for C7 at a one-segment URI whose authority is unknown (empty
requestor list): the default `F20140210` classification is returned. -/
theorem c7_witness :
    parseLegacyURI "cloudprint://Nobody/acct" ([] : List (Requestor Nat)) =
      some ⟨some "acct", some "Nobody", none, URIFormat20140210⟩ ∧
    URIFormat20140210 = URIFormat20140210 ∧
    (none : Option String) = none := by
  have heval : parseLegacyURI "cloudprint://Nobody/acct"
      ([] : List (Requestor Nat)) =
      some ⟨some "acct", some "Nobody", none, URIFormat20140210⟩ := by decide
  have h := (c7_claim "cloudprint://Nobody/acct" ([] : List (Requestor Nat))
    ⟨"cloudprint", "Nobody", "/acct", "", "", ""⟩ (by decide)).2
    ⟨some "acct", some "Nobody", none, URIFormat20140210⟩ heval
    (by decide) (by decide)
  exact ⟨heval, h.1 ▸ rfl, h.2 ▸ rfl⟩

/-! ## Claim C5 -/

/-- Claim C5: `getOverrideCapabilities` folds the loop body over the
space-split tokens; a `key=value` token with key distinct from
`Orientation` sets `overrides[key] = value` (dict assignment, so a later
token overwrites an earlier binding of the same key), the exact tokens
`landscape` and `nolandscape` both set `Orientation` to `Landscape`, an
`Orientation=...` token contributes nothing, and in particular the two
concrete examples of the spec hold. -/
theorem c5_claim :
    getOverrideCapabilities "media=A4 landscape" =
      [("media", "A4"), ("Orientation", "Landscape")] ∧
    getOverrideCapabilities "Orientation=Portrait" = [] ∧
    (∀ s, getOverrideCapabilities s =
      (pySplit s ' ').foldl processOverrideToken []) ∧
    (∀ acc k v, '=' ∉ k.data → '=' ∉ v.data → k ≠ "Orientation" →
      processOverrideToken acc (k ++ "=" ++ v) = dictSet acc k v) ∧
    (∀ acc, processOverrideToken acc "landscape" =
      dictSet acc "Orientation" "Landscape") ∧
    (∀ acc, processOverrideToken acc "nolandscape" =
      dictSet acc "Orientation" "Landscape") ∧
    (∀ acc v, processOverrideToken acc ("Orientation=" ++ v) = acc) ∧
    (∀ (d : List (String × String)) (k v : String),
      dictLookup (dictSet d k v) k = some v) := by
  refine ⟨by decide, by decide, fun s => rfl, ?_, fun acc => rfl, fun acc => rfl,
    ?_, dictLookup_dictSet_self⟩
  · intro acc k v hk hv hko
    have hdata : (k ++ "=" ++ v).data = k.data ++ ('=' :: v.data) := by
      rw [String.data_append, String.data_append, List.append_assoc]
      rfl
    have hmem : '=' ∈ (k ++ "=" ++ v).data := by
      rw [hdata]
      exact List.mem_append_right _ (List.mem_cons_self _ _)
    have hcon : ((k ++ "=" ++ v).data.contains '=') = true :=
      List.elem_eq_true_of_mem hmem
    have hps : pySplit (k ++ "=" ++ v) '=' = [k, v] := by
      unfold pySplit
      rw [hdata, splitCharList_sep hk, splitCharList_not_mem hv]
      rfl
    have hne1 : ((k ++ "=" ++ v) == "landscape") = false := by
      refine beq_eq_false_iff_ne.mpr fun hh => ?_
      rw [hh] at hmem
      exact absurd hmem (by decide)
    have hne2 : ((k ++ "=" ++ v) == "nolandscape") = false := by
      refine beq_eq_false_iff_ne.mpr fun hh => ?_
      rw [hh] at hmem
      exact absurd hmem (by decide)
    have hik : (ignorecapabilities.contains k) = false := by
      cases hc : ignorecapabilities.contains k with
      | false => rfl
      | true =>
        have hmem2 : k ∈ ignorecapabilities := List.elem_iff.mp hc
        simp only [ignorecapabilities, List.mem_singleton] at hmem2
        exact absurd hmem2 hko
    unfold processOverrideToken
    simp only [hcon, hps, hik, hne1, hne2, List.headD_cons,
      List.get?_cons_succ, List.get?_cons_zero, Option.getD_some,
      Bool.or_self, if_true, if_false, Bool.false_eq_true, ite_true,
      ite_false]
  · intro acc v
    have hdata : ("Orientation=" ++ v).data =
        "Orientation".data ++ ('=' :: v.data) := by
      rw [String.data_append]
      rfl
    have hm : '=' ∉ ("Orientation" : String).data := by decide
    have hmem : '=' ∈ ("Orientation=" ++ v).data := by
      rw [hdata]
      exact List.mem_append_right _ (List.mem_cons_self _ _)
    have hcon : (("Orientation=" ++ v).data.contains '=') = true :=
      List.elem_eq_true_of_mem hmem
    have hps : pySplit ("Orientation=" ++ v) '=' =
        "Orientation" :: (splitCharList '=' v.data).map (fun l => ⟨l⟩) := by
      unfold pySplit
      rw [hdata, splitCharList_sep hm]
      rfl
    unfold processOverrideToken
    simp only [hcon, hps, List.headD_cons, if_true, ite_true]
    rfl

/-- Witness for C5 at concrete tokens and dicts. -/
theorem c5_witness :
    processOverrideToken [] ("copies" ++ "=" ++ "2") = dictSet [] "copies" "2" ∧
    processOverrideToken [("x", "y")] "landscape" =
      dictSet [("x", "y")] "Orientation" "Landscape" ∧
    processOverrideToken [("a", "b")] ("Orientation=" ++ "Portrait") =
      [("a", "b")] ∧
    dictLookup (dictSet [("k", "1")] "k" "2") "k" = some "2" := by
  obtain ⟨-, -, -, h4, h5, -, h7, h8⟩ := c5_claim
  exact ⟨h4 [] "copies" "2" (by decide) (by decide) (by decide),
    h5 [("x", "y")], h7 [("a", "b")] "Portrait", h8 [("k", "1")] "k" "2"⟩

/-! ## Claim C2 -/

/-- Claim C2, counterexample: the override loop matches keys against the
capability's *internal* hash name (`'Default' + key == attr['name']`), not
its display name.  For the capability displayed as `Duplex` (a reserved
word, so its internal name differs: `GCPDuplex`), an override keyed by the
display name `Duplex` whose value `Two` is exactly the InternalName of the
option `Two` is ignored, and the attribute-derived option `One` is emitted
instead of `Two`. -/
theorem c2_counterexample :
    getInternalName "Duplex" .capability none [] = "GCPDuplex" ∧
    getInternalName "Two" .option (some "Duplex") ["One"] = "Two" ∧
    findCapability [⟨"Duplex", [⟨"One"⟩, ⟨"Two"⟩]⟩] "GCPDuplex" =
      some ⟨"Duplex", [⟨"One"⟩, ⟨"Two"⟩]⟩ ∧
    lookupOverrideFor [("Duplex", "Two")] "DefaultGCPDuplex" = none ∧
    getCapabilitiesDict [⟨"DefaultGCPDuplex", "One"⟩]
      [⟨"Duplex", [⟨"One"⟩, ⟨"Two"⟩]⟩] [("Duplex", "Two")] =
      ⟨[⟨"Feature", "Duplex", [⟨"One"⟩]⟩]⟩ ∧
    ("One" : String) ≠ "Two" := by
  exact ⟨by decide, by decide, by decide, by decide, by decide, by decide⟩

/-- Claim C2 (amended): in `getCapabilitiesDict`, for a `Default`-prefixed
driver attribute that resolves to a capability, if the overrides mapping
contains an entry keyed by that capability's *InternalName* (the hash name,
i.e. a key `k` with `"Default" ++ k` equal to the attribute name) whose
value equals the InternalName of one of the capability's options (derived
in emission order), then that option's display name is selected for the
emitted entry, taking priority over the option derived from the
attribute's value. -/
theorem c2_claim (attrName attrValue : String)
    (printercapabilities : List CloudCapability)
    (overridecapabilities : List (String × String))
    (capability : CloudCapability) (v optname : String)
    (hpre : pyStartsWith attrName "Default" = true)
    (hcap : findCapability printercapabilities
      (pyReplace attrName "Default" "") = some capability)
    (hover : lookupOverrideFor overridecapabilities attrName = some v)
    (hopt : findOptionByInternal capability.name v capability.options [] =
      some optname) :
    getCapabilitiesDict [⟨attrName, attrValue⟩] printercapabilities
      overridecapabilities =
      ⟨[⟨"Feature", capability.name, [⟨optname⟩]⟩]⟩ := by
  have hp : processAttr printercapabilities overridecapabilities
      ⟨attrName, attrValue⟩ = some ⟨"Feature", capability.name, [⟨optname⟩]⟩ := by
    unfold processAttr
    simp only [hpre, if_true, ite_true, hcap, hover, hopt]
  unfold getCapabilitiesDict
  simp only [List.foldl_cons, List.foldl_nil, hp]
  rfl

/-- Witness for C2 (amended): an override keyed by the internal hash name
`GCPDuplex` selects option `Two`, overriding the attribute-derived `One`. -/
theorem c2_witness :
    pyStartsWith "DefaultGCPDuplex" "Default" = true ∧
    findCapability [⟨"Duplex", [⟨"One"⟩, ⟨"Two"⟩]⟩]
      (pyReplace "DefaultGCPDuplex" "Default" "") =
      some ⟨"Duplex", [⟨"One"⟩, ⟨"Two"⟩]⟩ ∧
    lookupOverrideFor [("GCPDuplex", "Two")] "DefaultGCPDuplex" = some "Two" ∧
    findOptionByInternal "Duplex" "Two" [⟨"One"⟩, ⟨"Two"⟩] [] = some "Two" ∧
    getCapabilitiesDict [⟨"DefaultGCPDuplex", "One"⟩]
      [⟨"Duplex", [⟨"One"⟩, ⟨"Two"⟩]⟩] [("GCPDuplex", "Two")] =
      ⟨[⟨"Feature", "Duplex", [⟨"Two"⟩]⟩]⟩ := by
  refine ⟨by decide, by decide, by decide, by decide, ?_⟩
  exact c2_claim "DefaultGCPDuplex" "One" [⟨"Duplex", [⟨"One"⟩, ⟨"Two"⟩]⟩]
    [("GCPDuplex", "Two")] ⟨"Duplex", [⟨"One"⟩, ⟨"Two"⟩]⟩ "Two" "Two"
    (by decide) (by decide) (by decide) (by decide)

end CCP
